import Mathlib

/-!
Verification of the code-tokenizer pipeline of the repository
(`pytools/code-tokenizer/tokenize_code.py`) against its specification.

The Python source is shallowly embedded below:

* `basic_tokenizer` / `basicTokenize` embed the regex-split tokenizer
  built on `BASIC_TOKEN_PATTERN` (line 13 of the source) together with
  the filtering loop of `basic_tokenizer` (lines 32-49).
* `process_file` embeds the per-file read/tokenize dispatcher
  (lines 77-109); file reads and the external tiktoken encoder are
  modelled as functions carried by an `Env` record, since they are
  external collaborators of the core.
* `find_code_files` embeds file discovery (lines 111-145) over a
  filesystem model (path kinds plus a directory walker).
* `processLoop` embeds the aggregation loop of `main` (lines 223-242),
  `buildPayload` the output writer (lines 268-288), and `mainRun` the
  whole `main` control flow including the final exit-status logic
  (lines 298-304).

Paths are taken to be absolute already (the source calls
`os.path.abspath` on every path before use, which is the identity on
absolute paths), and lower-casing is modelled for ASCII letters.
-/

namespace TokenizeCode

/-- Python whitespace (the set matched by the regex class `\s` on `str`
and tested by `str.isspace`): ASCII whitespace, the information
separators 0x1c-0x1f, and the Unicode space characters. -/
def pyIsSpace (c : Char) : Bool :=
  let n := c.toNat
  (9 ≤ n && n ≤ 13) || n == 32 || (28 ≤ n && n ≤ 31) || n == 133 || n == 160 ||
  n == 5760 || (8192 ≤ n && n ≤ 8202) || n == 8232 || n == 8233 ||
  n == 8239 || n == 8287 || n == 12288

/-- The single-character bracket/punctuation class of
`BASIC_TOKEN_PATTERN`: the characters `(){}[].,;:` plus double quote
(0x22), single quote (0x27), backquote (0x60) and tilde. -/
def puncts : List Char :=
  ['(', ')', '\x7b', '\x7d', '[', ']', '.', ',', ';', ':',
   '\x22', '\x27', '\x60', '~']

/-- The two-character operator alternatives of `BASIC_TOKEN_PATTERN`,
in the order they appear in the pattern. -/
def twoOps : List (Char × Char) :=
  [('-', '>'), ('=', '='), ('!', '='), ('<', '='), ('>', '='),
   ('&', '&'), ('|', '|'), ('+', '='), ('-', '='), ('*', '='),
   ('/', '='), ('%', '='), ('^', '='), ('/', '/'), ('<', '<'),
   ('>', '>'), ('*', '*')]

/-- The single-character operator class `[-+*/%<>=&|!^]` of
`BASIC_TOKEN_PATTERN` (tried last by the alternation). -/
def oneOps : List Char :=
  ['-', '+', '*', '/', '%', '<', '>', '=', '&', '|', '!', '^']

/-- One attempt of the captured-group alternation of
`BASIC_TOKEN_PATTERN` at the head of the character list: the
punctuation class first, then the two-character operators, then the
single-character operator class (regex alternation is tried left to
right, so a two-character operator wins over its one-character
prefix).  Returns the matched delimiter and the remaining input. -/
def matchSep : List Char → Option (List Char × List Char)
  | [] => none
  | c :: cs =>
    if puncts.contains c then some ([c], cs)
    else
      match cs with
      | c2 :: cs2 =>
        if twoOps.contains (c, c2) then some ([c, c2], cs2)
        else if oneOps.contains c then some ([c], cs)
        else none
      | [] => if oneOps.contains c then some ([c], cs) else none

/-- One element of the list produced by `re.split` with a pattern that
has one capture group: a piece of text between matches (`gap`), a
captured delimiter (`sep`), or the `None` entry recorded for a
whitespace match in which the group did not participate (`wsSep`). -/
inductive RePart where
  | gap (s : List Char)
  | sep (s : List Char)
  | wsSep
deriving Repr, DecidableEq

/-- The `re.split` scan of `BASIC_TOKEN_PATTERN` over the input.  At
each position the pattern first tries `\s+` (a maximal whitespace run,
yielding a `None` separator) and otherwise the captured group
(`matchSep`); a character matched by neither is text and goes into the
current gap.  Returns the leading gap and the remaining parts.  The
first argument is fuel; each step consumes at least one character, so
`fuel = length` suffices (`reSplitGo_spec` carries that bound). -/
def reSplitGo : Nat → List Char → List Char × List RePart
  | 0, rest => (rest, [])
  | _ + 1, [] => ([], [])
  | fuel + 1, c :: cs =>
    if pyIsSpace c then
      let r := reSplitGo fuel (cs.dropWhile pyIsSpace)
      ([], RePart.wsSep :: RePart.gap r.1 :: r.2)
    else
      match matchSep (c :: cs) with
      | some (m, rest) =>
        let r := reSplitGo fuel rest
        ([], RePart.sep m :: RePart.gap r.1 :: r.2)
      | none =>
        let r := reSplitGo fuel cs
        (c :: r.1, r.2)

/-- The full parts list returned by
`BASIC_TOKEN_PATTERN.split(text)`: leading text piece, then
alternating separators and text pieces. -/
def reParts (t : List Char) : List RePart :=
  let r := reSplitGo t.length t
  RePart.gap r.1 :: r.2

/-- The value a part contributes to the Python list: text pieces and
captured delimiters are strings, a non-participating group is `None`. -/
def partVal : RePart → Option (List Char)
  | RePart.gap s => some s
  | RePart.sep s => some s
  | RePart.wsSep => none

/-- Python `str.strip()`: remove leading and trailing whitespace. -/
def pyStrip (s : List Char) : List Char :=
  ((s.dropWhile pyIsSpace).reverse.dropWhile pyIsSpace).reverse

/-- Python `str.isspace()`: nonempty and every character whitespace. -/
def strIsSpace (s : List Char) : Bool :=
  !s.isEmpty && s.all pyIsSpace

/-- The loop body of `basic_tokenizer` (source lines 45-47): a falsy
part (`None` or the empty string) is ignored, any other part is kept
stripped. -/
def keepPart (p : RePart) : Option (List Char) :=
  match partVal p with
  | some s => if s.isEmpty then none else some (pyStrip s)
  | none => none

/-- Function `basic_tokenizer` (source lines 32-49): split by the pattern, keep
truthy parts stripped, then drop empty and whitespace-only tokens. -/
def basic_tokenizer (text : List Char) : List (List Char) :=
  let parts := reParts text
  let tokens := parts.filterMap keepPart
  tokens.filter fun tok => !tok.isEmpty && !strIsSpace tok

/-- Function `basic_tokenizer` on `String`, returning `String` tokens. -/
def basicTokenize (s : String) : List String :=
  (basic_tokenizer s.data).map List.asString

/-- The input with every whitespace character removed: the
whitespace-normalized form reached by concatenating the tokens. -/
def stripWs (t : List Char) : List Char :=
  t.filter fun c => !pyIsSpace c

/-- A part is free of whitespace characters. -/
def partNonspace : RePart → Bool
  | RePart.gap s => s.all fun c => !pyIsSpace c
  | RePart.sep s => s.all fun c => !pyIsSpace c
  | RePart.wsSep => true

/-- The characters carried by a list of parts, in order (whitespace
separators carry none). -/
def partsContent (ps : List RePart) : List Char :=
  (ps.filterMap partVal).flatten

/-! ## The pipeline: discovery, per-file processing, aggregation,
output and exit status -/

/-- The payload a file contributes: basic-mode string tokens or
tiktoken-mode integer token IDs. -/
inductive TokData where
  | strs (toks : List String)
  | ids (toks : List Nat)
deriving Repr, DecidableEq

/-- Length of the token payload. -/
def tokLen : TokData → Nat
  | TokData.strs l => l.length
  | TokData.ids l => l.length

/-- Result of opening and reading a file (source line 91): success
with the decoded content (decoding is lenient and never fails),
`FileNotFoundError`, or any other exception with its message. -/
inductive ReadResult where
  | ok (content : String)
  | notFound
  | failed (msg : String)

/-- Kind reported by the filesystem for a path: regular file,
directory, nonexistent, or something else (source lines 126-143). -/
inductive PathKind where
  | file
  | dir
  | missing
  | other
deriving Repr, DecidableEq

/-- The filesystem as seen by `find_code_files`: a kind for every path
and the `os.walk` enumeration of a directory as (dirpath, filenames)
pairs.  Paths are taken to be absolute already. -/
structure FSModel where
  kind : String → PathKind
  walk : String → List (String × List String)

/-- The runtime environment of one run: the filesystem, whether the
tiktoken library imported, the file reader, the external encoder
(model name and text to token IDs, or a raised exception message), and
whether writing the requested output file succeeds. -/
structure Env where
  fs : FSModel
  tiktokenAvailable : Bool
  read : String → ReadResult
  encode : String → String → Except String (List Nat)
  writeOk : Bool
  writeErrMsg : String

/-- ASCII lower-casing of one character (Python `str.lower` restricted
to ASCII letters, which is all the extension sets use). -/
def lowerChar (c : Char) : Char :=
  if 'A' ≤ c ∧ c ≤ 'Z' then Char.ofNat (c.toNat + 32) else c

/-- ASCII `str.lower`. -/
def lowerStr (s : String) : String :=
  (s.data.map lowerChar).asString

/-- The basename of a POSIX path: everything after the last slash. -/
def basenameCs (cs : List Char) : List Char :=
  (cs.reverse.takeWhile (fun c => c ≠ '/')).reverse

/-- The suffix starting at the last dot of a list, or empty when
there is no dot. -/
def extFrom : List Char → List Char
  | [] => []
  | c :: cs =>
    let r := extFrom cs
    if !r.isEmpty then r else if c = '.' then c :: cs else []

/-- The extension part of `os.path.splitext`: the suffix from the last
dot of the basename, except that leading dots of the basename never
start an extension. -/
def splitextExt (p : String) : String :=
  (extFrom ((basenameCs p.data).dropWhile (fun c => c = '.'))).asString

/-- Python `os.path.join` for POSIX paths, as used on `(root, file)` pairs
coming out of `os.walk`. -/
def pathJoin (root f : String) : String :=
  if f.data.head? = some '/' then f
  else if root = "" ∨ root.data.getLast? = some '/' then root ++ f
  else root ++ "/" ++ f

/-- Function `find_code_files` (source lines 111-145): a missing path gives no
files; a single file is kept only when its lower-cased extension is
allowed; a directory is walked and its files filtered by extension; a
path that is neither file nor directory gives no files. -/
def find_code_files (fs : FSModel) (start_path : String)
    (allowed_extensions : List String) : List String :=
  match fs.kind start_path with
  | PathKind.missing => []
  | PathKind.file =>
    if allowed_extensions.contains (lowerStr (splitextExt start_path)) then
      [start_path]
    else []
  | PathKind.dir =>
    ((fs.walk start_path).map (fun rf =>
      (rf.2.filter (fun f =>
        allowed_extensions.contains (lowerStr (splitextExt f)))).map
        (pathJoin rf.1))).flatten
  | PathKind.other => []

/-- Function `process_file` (source lines 77-109): read the file, dispatch on
the mode, and return `(tokens_or_ids, token_count, error_message)`,
never raising. -/
def process_file (env : Env) (file_path mode model_name : String) :
    Option TokData × Nat × Option String :=
  match env.read file_path with
  | ReadResult.ok content =>
    if mode = "basic" then
      let tokens := basicTokenize content
      (some (TokData.strs tokens), tokens.length, none)
    else if mode = "tiktoken" then
      if env.tiktokenAvailable = false then
        (none, 0, some "tiktoken library not installed")
      else
        match env.encode model_name content with
        | Except.ok token_ids =>
          (some (TokData.ids token_ids), token_ids.length, none)
        | Except.error e =>
          (none, 0, some ("Error processing file " ++ file_path ++ ": " ++ e))
    else (none, 0, some ("Invalid mode: " ++ mode))
  | ReadResult.notFound =>
    (none, 0, some ("File not found: " ++ file_path))
  | ReadResult.failed e =>
    (none, 0, some ("Error processing file " ++ file_path ++ ": " ++ e))

/-- One entry of the `all_results` dict (source lines 237 and 240): on
error the dict is `\x7b"count": 0, "error": error\x7d`, on success
`\x7b"count": count, "tokens": tokens_or_ids\x7d`; an `Option` field
models presence of the corresponding key. -/
structure FileRes where
  count : Nat
  error : Option String
  tokens : Option TokData
deriving Repr, DecidableEq

/-- Python dict assignment `d[k] = v` on an insertion-ordered
association list: an existing key keeps its position, a new key is
appended. -/
def dictInsert (l : List (String × FileRes)) (k : String) (v : FileRes) :
    List (String × FileRes) :=
  if l.any (fun kv => kv.1 = k) then
    l.map (fun kv => if kv.1 = k then (k, v) else kv)
  else l ++ [(k, v)]

/-- The accumulator of the processing loop of `main` (source lines
223-242): running token total, the `all_results` dict and the `errors`
list. -/
structure LoopState where
  total : Nat
  results : List (String × FileRes)
  errors : List String
deriving Repr, DecidableEq

/-- One iteration of the processing loop (source lines 227-242). -/
def processStep (env : Env) (mode model_name : String)
    (st : LoopState) (file_path : String) : LoopState :=
  let r := process_file env file_path mode model_name
  match r.2.2 with
  | some error =>
    { total := st.total,
      results := dictInsert st.results file_path ⟨0, some error, none⟩,
      errors := st.errors ++ [file_path ++ ": " ++ error] }
  | none =>
    { total := st.total + r.2.1,
      results := dictInsert st.results file_path ⟨r.2.1, none, r.1⟩,
      errors := st.errors }

/-- The whole processing loop over the (already sorted) file list. -/
def processLoop (env : Env) (mode model_name : String)
    (files : List String) : LoopState :=
  files.foldl (processStep env mode model_name) ⟨0, [], []⟩

/-- The `FileOutcome` recorded for one file, as the loop stores it. -/
def outcomeOf (env : Env) (mode model_name file_path : String) : FileRes :=
  let r := process_file env file_path mode model_name
  match r.2.2 with
  | some error => ⟨0, some error, none⟩
  | none => ⟨r.2.1, none, r.1⟩

/-- Python string comparison (lexicographic by code point), the order
used by `sorted`. -/
def pySorted (l : List String) : List String :=
  l.insertionSort (fun a b => a ≤ b)

/-- One element of the JSON list written in tiktoken mode (source
lines 280-287): a token-ID list, or the placeholder object
`\x7b"error": ..., "file": ...\x7d` for an errored file. -/
inductive JEntry where
  | toks (td : TokData)
  | errObj (error : String) (file : String)
deriving Repr, DecidableEq

/-- What gets written to the output file (source lines 269-288): basic
mode writes one space-separated string, tiktoken mode a JSON list. -/
inductive OutPayload where
  | text (s : String)
  | jlist (entries : List JEntry)
deriving Repr, DecidableEq

/-- The content of the output file (source lines 270-288), built from
`all_results` over its keys in sorted order.  In basic mode only
entries carrying tokens contribute (string tokens; the integer-ID
alternative cannot occur in basic mode); in tiktoken mode an entry
without tokens becomes the error placeholder, its message defaulting
as in `result.get("error", "Unknown error")`. -/
def buildPayload (mode : String) (results : List (String × FileRes)) :
    OutPayload :=
  if mode = "basic" then
    OutPayload.text (String.intercalate " "
      (((pySorted (results.map Prod.fst)).map (fun p =>
        match List.lookup p results with
        | some r =>
          match r.tokens with
          | some (TokData.strs l) => l
          | some (TokData.ids l) => l.map toString
          | none => []
        | none => [])).flatten))
  else
    OutPayload.jlist ((pySorted (results.map Prod.fst)).map (fun p =>
      match List.lookup p results with
      | some r =>
        match r.tokens with
        | some td => JEntry.toks td
        | none => JEntry.errObj (r.error.getD "Unknown error") p
      | none => JEntry.errObj "Unknown error" p))

/-- Python substring test `needle in hay` on character lists. -/
def containsSubCs (n : List Char) : List Char → Bool
  | [] => n.isEmpty
  | c :: cs => n.isPrefixOf (c :: cs) || containsSubCs n cs

/-- Python substring test `needle in hay`. -/
def containsSub (needle hay : String) : Bool :=
  containsSubCs needle.data hay.data

/-- The command-line arguments of the tokenizer (section 6 of the
spec).  `output = some p` is a requested (truthy) output path. -/
structure Args where
  input_path : String
  mode : String
  model : String
  output : Option String
  extensions : List String

/-- Extension normalization of `main` (source line 211): lower-case
and make sure a leading dot is present. -/
def normExt (ext : String) : String :=
  if ext.data.head? = some '.' then lowerStr ext else "." ++ lowerStr ext

/-- Everything observable about one run of `main`: the process exit
code, the discovered files (`none` when the run ended before
discovery), the files iterated by the processing loop, the
`all_results` dict, the token total, the error list, and the output
payload when an output file was requested and written successfully. -/
structure MainResult where
  exitCode : Nat
  discovered : Option (List String)
  processed : List String
  results : List (String × FileRes)
  total : Nat
  errors : List String
  written : Option OutPayload
deriving Repr, DecidableEq

/-- The error list after the optional output phase (source lines
261-296): a failed write appends an "Output Error: ..." message. -/
def errorsAfterOutput (env : Env) (args : Args) (st : LoopState) : List String :=
  match args.output with
  | none => st.errors
  | some _ =>
    if env.writeOk then st.errors
    else st.errors ++ ["Output Error: " ++ env.writeErrMsg]

/-- The payload actually written to the output file: present exactly
when an output path was requested and the write succeeded. -/
def writtenPayload (env : Env) (args : Args) (st : LoopState) :
    Option OutPayload :=
  match args.output with
  | none => none
  | some _ =>
    if env.writeOk then some (buildPayload args.mode st.results) else none

/-- The final exit logic of `main` (source lines 298-304): exit 1 when
errors occurred and no output was requested, or when output was
requested and some recorded error message contains the substring
"Output Error"; exit 0 otherwise. -/
def finalExitCode (args : Args) (errors2 : List String) : Nat :=
  if errors2 ≠ [] ∧ args.output = none then 1
  else if errors2 ≠ [] ∧ args.output ≠ none ∧
      errors2.any (fun e => containsSub "Output Error" e) then 1
  else 0

/-- The tail of `main` once discovery produced a nonempty file list:
the processing loop over the sorted files, the optional output phase
and the final exit logic. -/
def mainAfterDiscovery (env : Env) (args : Args) (code_files : List String) :
    MainResult :=
  let sorted_files := pySorted code_files
  let st := processLoop env args.mode args.model sorted_files
  let errors2 := errorsAfterOutput env args st
  ⟨finalExitCode args errors2, some code_files, sorted_files, st.results,
   st.total, errors2, writtenPayload env args st⟩

/-- Function `main` (source lines 149-304): tiktoken pre-flight check, file
discovery, empty-set early exit with code 0, then
`mainAfterDiscovery` (processing loop, optional output writing - a
failure appends an "Output Error: ..." message - and the final exit
logic of lines 298-304). -/
def mainRun (env : Env) (args : Args) : MainResult :=
  if args.mode = "tiktoken" ∧ env.tiktokenAvailable = false then
    ⟨1, none, [], [], 0, [], none⟩
  else
    let code_files :=
      find_code_files env.fs args.input_path (args.extensions.map normExt)
    if code_files.isEmpty then
      ⟨0, some code_files, [], [], 0, [], none⟩
    else
      mainAfterDiscovery env args code_files

/-- Sum of `tokenCount` over the outcomes that carry no error. -/
def sumNonErrorCounts (results : List (String × FileRes)) : Nat :=
  ((results.filter (fun kv => kv.2.error = none)).map (fun kv => kv.2.count)).sum

/-- The file list one run discovers. -/
def discoveredFiles (env : Env) (args : Args) : List String :=
  find_code_files env.fs args.input_path (args.extensions.map normExt)

/-- The JSON entry expected for one file of tiktoken-mode output: the
token-ID payload of the file, or the error placeholder carrying the
error message and the file path. -/
def expectedEntry (env : Env) (mode mn p : String) : JEntry :=
  match (process_file env p mode mn).2.2, (process_file env p mode mn).1 with
  | some e, _ => JEntry.errObj e p
  | none, some td => JEntry.toks td
  | none, none => JEntry.errObj "Unknown error" p

/-! ## Concrete environments used by witnesses and counterexamples -/

/-- Demo filesystem: one directory holding two Python files. -/
def fsDemo : FSModel where
  kind := fun p => if p = "/repo" then PathKind.dir else PathKind.missing
  walk := fun _ => [("/repo", ["b.py", "a.py"])]

/-- Demo environment: reading one file fails (it vanished between
discovery and reading), the other reads fine. -/
def envDemo : Env where
  fs := fsDemo
  tiktokenAvailable := false
  read := fun p =>
    if p = "/repo/a.py" then ReadResult.notFound else ReadResult.ok "x y"
  encode := fun _ _ => Except.ok [1, 2]
  writeOk := true
  writeErrMsg := "disk full"

/-- Demo arguments: basic mode over the demo directory, no output. -/
def argsDemo : Args where
  input_path := "/repo"
  mode := "basic"
  model := "gpt-4"
  output := none
  extensions := [".py"]

/-- Demo environment with the tiktoken capability present. -/
def envTk : Env := { envDemo with tiktokenAvailable := true }

/-- Demo arguments in tiktoken mode. -/
def argsTk : Args := { argsDemo with mode := "tiktoken" }

/-- Demo arguments in tiktoken mode with an output file requested. -/
def argsTkOut : Args :=
  { argsDemo with mode := "tiktoken", output := some "/out/ids.json" }

/-- Filesystem holding a single file whose extension is not in the
allowed set. -/
def fsSingle : FSModel where
  kind := fun p => if p = "/a/b.xyz" then PathKind.file else PathKind.missing
  walk := fun _ => []

/-- Environment around that single unsupported file. -/
def envSingle : Env := { envDemo with fs := fsSingle }

/-- Arguments naming the single unsupported file. -/
def argsSingle : Args := { argsDemo with input_path := "/a/b.xyz" }

/-- Filesystem whose directory holds a file literally named
"Output Error.py". -/
def fsSentinel : FSModel where
  kind := fun p => if p = "/d" then PathKind.dir else PathKind.missing
  walk := fun _ => [("/d", ["Output Error.py"])]

/-- Environment in which that file fails to read while writing the
requested output succeeds. -/
def envSentinel : Env :=
  { envDemo with fs := fsSentinel, read := fun _ => ReadResult.notFound }

/-- Arguments requesting an output file over that directory. -/
def argsSentinel : Args :=
  { argsDemo with input_path := "/d", output := some "/out.txt" }

/-! ## Properties -/

lemma partsContent_nil : partsContent [] = [] := rfl

lemma partsContent_cons (p : RePart) (ps : List RePart) :
    partsContent (p :: ps) = ((partVal p).getD []) ++ partsContent ps := by
  cases p <;> simp [partsContent, partVal]

lemma puncts_nonspace : ∀ c ∈ puncts, pyIsSpace c = false := by decide

lemma twoOps_nonspace :
    ∀ p ∈ twoOps, pyIsSpace p.1 = false ∧ pyIsSpace p.2 = false := by decide

lemma oneOps_nonspace : ∀ c ∈ oneOps, pyIsSpace c = false := by decide

/-- A successful delimiter match splits the input exactly, matches at
least one character, and matches no whitespace character. -/
lemma matchSep_spec {l m rest : List Char} (h : matchSep l = some (m, rest)) :
    l = m ++ rest ∧ m ≠ [] ∧ m.all (fun c => !pyIsSpace c) = true := by
  cases l with
  | nil => simp [matchSep] at h
  | cons c cs =>
    cases cs with
    | nil =>
      simp only [matchSep] at h
      split at h
      next hp =>
        injection h with h1
        injection h1 with hA hB
        subst hA; subst hB
        exact ⟨rfl, by simp, by simp [puncts_nonspace c (by simpa using hp)]⟩
      next hp =>
        split at h
        next h1 =>
          injection h with hh
          injection hh with hA hB
          subst hA; subst hB
          exact ⟨rfl, by simp, by simp [oneOps_nonspace c (by simpa using h1)]⟩
        next h1 => exact absurd h (by simp)
    | cons c2 cs2 =>
      simp only [matchSep] at h
      split at h
      next hp =>
        injection h with h1
        injection h1 with hA hB
        subst hA; subst hB
        exact ⟨rfl, by simp, by simp [puncts_nonspace c (by simpa using hp)]⟩
      next hp =>
        split at h
        next h2 =>
          injection h with h1
          injection h1 with hA hB
          subst hA; subst hB
          have hn := twoOps_nonspace (c, c2) (by simpa using h2)
          exact ⟨rfl, by simp, by simp [hn.1, hn.2]⟩
        next h2 =>
          split at h
          next h1 =>
            injection h with hh
            injection hh with hA hB
            subst hA; subst hB
            exact ⟨rfl, by simp, by simp [oneOps_nonspace c (by simpa using h1)]⟩
          next h1 => exact absurd h (by simp)

lemma stripWs_cons_space {c : Char} (hc : pyIsSpace c = true) (cs : List Char) :
    stripWs (c :: cs) = stripWs cs := by
  simp [stripWs, hc]

lemma stripWs_cons_nonspace {c : Char} (hc : pyIsSpace c = false) (cs : List Char) :
    stripWs (c :: cs) = c :: stripWs cs := by
  simp [stripWs, hc]

lemma stripWs_dropWhile (l : List Char) :
    stripWs (l.dropWhile pyIsSpace) = stripWs l := by
  induction l with
  | nil => rfl
  | cons c cs ih =>
    by_cases hc : pyIsSpace c
    · rw [List.dropWhile_cons_of_pos hc, ih, stripWs_cons_space hc]
    · rw [List.dropWhile_cons_of_neg hc]

lemma stripWs_append_nonspace {m : List Char}
    (hm : m.all (fun c => !pyIsSpace c) = true) (l : List Char) :
    stripWs (m ++ l) = m ++ stripWs l := by
  unfold stripWs
  rw [List.filter_append]
  congr 1
  exact List.filter_eq_self.mpr (by simpa [List.all_eq_true] using hm)

lemma reSplitGo_space {fuel : Nat} {c : Char} (cs : List Char)
    (hc : pyIsSpace c = true) :
    reSplitGo (fuel + 1) (c :: cs) =
      ([], RePart.wsSep ::
        RePart.gap (reSplitGo fuel (cs.dropWhile pyIsSpace)).1 ::
        (reSplitGo fuel (cs.dropWhile pyIsSpace)).2) := by
  simp [reSplitGo, hc]

lemma reSplitGo_sep {fuel : Nat} {c : Char} {cs m rest : List Char}
    (hc : pyIsSpace c = false) (hm : matchSep (c :: cs) = some (m, rest)) :
    reSplitGo (fuel + 1) (c :: cs) =
      ([], RePart.sep m ::
        RePart.gap (reSplitGo fuel rest).1 :: (reSplitGo fuel rest).2) := by
  simp [reSplitGo, hc, hm]

lemma reSplitGo_text {fuel : Nat} {c : Char} {cs : List Char}
    (hc : pyIsSpace c = false) (hm : matchSep (c :: cs) = none) :
    reSplitGo (fuel + 1) (c :: cs) =
      (c :: (reSplitGo fuel cs).1, (reSplitGo fuel cs).2) := by
  simp [reSplitGo, hc, hm]

/-- Master invariant of the split scan: given enough fuel, the leading
gap is whitespace-free, every produced part is whitespace-free, and
the characters carried by the parts are exactly the input minus its
whitespace. -/
lemma reSplitGo_spec : ∀ (fuel : Nat) (t : List Char), t.length ≤ fuel →
    ((reSplitGo fuel t).1.all (fun c => !pyIsSpace c) = true)
    ∧ (∀ p ∈ (reSplitGo fuel t).2, partNonspace p = true)
    ∧ (reSplitGo fuel t).1 ++ partsContent (reSplitGo fuel t).2 = stripWs t := by
  intro fuel
  induction fuel with
  | zero =>
    intro t ht
    have : t = [] := List.length_eq_zero.mp (Nat.le_zero.mp ht)
    subst this
    refine ⟨by simp [reSplitGo], by simp [reSplitGo], ?_⟩
    simp [reSplitGo, partsContent, stripWs]
  | succ fuel ih =>
    intro t ht
    match t with
    | [] =>
      refine ⟨by simp [reSplitGo], by simp [reSplitGo], ?_⟩
      simp [reSplitGo, partsContent, stripWs]
    | c :: cs =>
      have hcs : cs.length ≤ fuel := by simpa using ht
      by_cases hc : pyIsSpace c = true
      · have hlen : (cs.dropWhile pyIsSpace).length ≤ fuel :=
          le_trans (List.dropWhile_sublist pyIsSpace).length_le hcs
        obtain ⟨ih1, ih2, ih3⟩ := ih (cs.dropWhile pyIsSpace) hlen
        rw [reSplitGo_space cs hc]
        refine ⟨by simp, ?_, ?_⟩
        · intro p hp
          simp only [List.mem_cons] at hp
          rcases hp with rfl | rfl | hp
          · rfl
          · exact ih1
          · exact ih2 _ hp
        · simp only [List.nil_append, partsContent_cons, partVal,
            Option.getD_some, Option.getD_none]
          rw [ih3, stripWs_dropWhile, stripWs_cons_space hc]
      · have hc' : pyIsSpace c = false := by simpa using hc
        match hm : matchSep (c :: cs) with
        | some (m, rest) =>
          obtain ⟨heq, hne, hnonsp⟩ := matchSep_spec hm
          have hrest : rest.length ≤ fuel := by
            have hl : (c :: cs).length = m.length + rest.length := by
              rw [heq, List.length_append]
            have hm1 : 1 ≤ m.length := by
              cases m with
              | nil => exact absurd rfl hne
              | cons _ _ => simp
            simp only [List.length_cons] at hl
            omega
          obtain ⟨ih1, ih2, ih3⟩ := ih rest hrest
          rw [reSplitGo_sep hc' hm]
          refine ⟨by simp, ?_, ?_⟩
          · intro p hp
            simp only [List.mem_cons] at hp
            rcases hp with rfl | rfl | hp
            · exact hnonsp
            · exact ih1
            · exact ih2 _ hp
          · simp only [List.nil_append, partsContent_cons, partVal,
              Option.getD_some]
            rw [heq, stripWs_append_nonspace hnonsp, ih3]
        | none =>
          obtain ⟨ih1, ih2, ih3⟩ := ih cs hcs
          rw [reSplitGo_text hc' hm]
          refine ⟨?_, ih2, ?_⟩
          · simp only [List.all_cons, Bool.and_eq_true]
            exact ⟨by simp [hc'], ih1⟩
          · rw [List.cons_append, ih3, stripWs_cons_nonspace hc']

lemma dropWhile_nonspace {s : List Char}
    (h : s.all (fun c => !pyIsSpace c) = true) : s.dropWhile pyIsSpace = s := by
  cases s with
  | nil => rfl
  | cons c cs =>
    simp only [List.all_cons, Bool.and_eq_true, Bool.not_eq_true'] at h
    exact List.dropWhile_cons_of_neg (by simp [h.1])

/-- Python `str.strip()` does nothing on a whitespace-free string. -/
lemma pyStrip_eq_self {s : List Char}
    (h : s.all (fun c => !pyIsSpace c) = true) : pyStrip s = s := by
  unfold pyStrip
  rw [dropWhile_nonspace h, dropWhile_nonspace (by simpa using h),
    List.reverse_reverse]

lemma all_pyIsSpace_eq_false {s : List Char} (hne : s ≠ [])
    (h : s.all (fun c => !pyIsSpace c) = true) : s.all pyIsSpace = false := by
  cases s with
  | nil => exact absurd rfl hne
  | cons c cs =>
    simp only [List.all_cons, Bool.and_eq_true, Bool.not_eq_true'] at h
    simp [h.1]

lemma keepPart_gap_of_ne {s : List Char} (hse : s.isEmpty = false) :
    keepPart (RePart.gap s) = some (pyStrip s) := by
  simp [keepPart, partVal, hse]

lemma keepPart_sep_of_ne {s : List Char} (hse : s.isEmpty = false) :
    keepPart (RePart.sep s) = some (pyStrip s) := by
  simp [keepPart, partVal, hse]

/-- Concatenating the tokens kept from a whitespace-free parts list
recovers exactly the characters the parts carry. -/
lemma tokens_flatten (parts : List RePart)
    (h : ∀ p ∈ parts, partNonspace p = true) :
    ((parts.filterMap keepPart).filter
        (fun tok => !tok.isEmpty && !strIsSpace tok)).flatten
      = partsContent parts := by
  induction parts with
  | nil => simp [partsContent]
  | cons p ps ih =>
    have hps : ∀ q ∈ ps, partNonspace q = true := fun q hq => h q (by simp [hq])
    have hp : partNonspace p = true := h p (by simp)
    rw [partsContent_cons]
    cases p with
    | wsSep =>
      rw [List.filterMap_cons_none rfl]
      simpa [partVal] using ih hps
    | gap s =>
      have hs : s.all (fun c => !pyIsSpace c) = true := hp
      by_cases hse : s.isEmpty = true
      · have hnil : s = [] := by simpa using hse
        subst hnil
        rw [List.filterMap_cons_none rfl]
        simpa [partVal] using ih hps
      · have hse' : s.isEmpty = false := by simpa using hse
        rw [List.filterMap_cons_some (keepPart_gap_of_ne hse')]
        rw [pyStrip_eq_self hs]
        have hne : s ≠ [] := by simpa using hse'
        have hsp : strIsSpace s = false := by
          simp [strIsSpace, all_pyIsSpace_eq_false hne hs]
        rw [List.filter_cons_of_pos (by simp [hse', hsp])]
        rw [List.flatten_cons, ih hps]
        simp [partVal]
    | sep s =>
      have hs : s.all (fun c => !pyIsSpace c) = true := hp
      by_cases hse : s.isEmpty = true
      · have hnil : s = [] := by simpa using hse
        subst hnil
        rw [List.filterMap_cons_none rfl]
        simpa [partVal] using ih hps
      · have hse' : s.isEmpty = false := by simpa using hse
        rw [List.filterMap_cons_some (keepPart_sep_of_ne hse')]
        rw [pyStrip_eq_self hs]
        have hne : s ≠ [] := by simpa using hse'
        have hsp : strIsSpace s = false := by
          simp [strIsSpace, all_pyIsSpace_eq_false hne hs]
        rw [List.filter_cons_of_pos (by simp [hse', hsp])]
        rw [List.flatten_cons, ih hps]
        simp [partVal]

/-- C4: for every input, the basic tokenizer output contains no empty
and no whitespace-only element. -/
theorem basic_tokens_nonempty_nonspace (t : List Char) (tok : List Char)
    (h : tok ∈ basic_tokenizer t) : tok ≠ [] ∧ strIsSpace tok = false := by
  unfold basic_tokenizer at h
  have := (List.mem_filter.mp h).2
  simp only [Bool.and_eq_true, Bool.not_eq_true'] at this
  exact ⟨by simpa using this.1, this.2⟩

/-- Witness for C4 at a concrete input and token. -/
theorem basic_tokens_nonempty_nonspace_witness :
    (['a'] : List Char) ≠ [] ∧ strIsSpace ['a'] = false :=
  basic_tokens_nonempty_nonspace (String.data "a b") ['a'] (by decide)

/-- C5: concatenating the tokens of the basic tokenizer reconstructs
the input with its whitespace runs removed (round trip modulo
whitespace). -/
theorem basic_roundtrip (t : List Char) :
    (basic_tokenizer t).flatten = stripWs t := by
  unfold basic_tokenizer
  obtain ⟨h1, h2, h3⟩ := reSplitGo_spec t.length t le_rfl
  have hall : ∀ p ∈ reParts t, partNonspace p = true := by
    intro p hp
    unfold reParts at hp
    rcases hp with _ | ⟨_, hp⟩
    · exact h1
    · exact h2 _ hp
  rw [tokens_flatten (reParts t) hall]
  unfold reParts
  rw [partsContent_cons]
  simpa [partVal] using h3

/-- C3 counterexample: on the text from the spec the basic tokenizer
does NOT produce the claimed sequence (the claimed list keeps the
token `-1` whole). -/
theorem basic_example_claim_false :
    basicTokenize "if (a==b) \x7b return -1; \x7d" ≠
      ["if", "(", "a", "==", "b", ")", "\x7b", "return", "-1", ";", "\x7d"] := by
  decide

/-- C3 amended: the basic tokenizer splits the sign from the numeral
(single-character operator rule), giving the tokens
if ( a == b ) brace return - 1 ; brace. -/
theorem basic_example_actual :
    basicTokenize "if (a==b) \x7b return -1; \x7d" =
      ["if", "(", "a", "==", "b", ")", "\x7b", "return", "-", "1", ";", "\x7d"] := by
  decide


/-! ## Pipeline lemmas -/

lemma dictInsert_of_fresh {l : List (String × FileRes)} {k : String}
    (v : FileRes) (h : ∀ kv ∈ l, kv.1 ≠ k) :
    dictInsert l k v = l ++ [(k, v)] := by
  unfold dictInsert
  rw [if_neg]
  simp only [List.any_eq_true, decide_eq_true_eq, not_exists, not_and]
  exact h

lemma processStep_eq (env : Env) (mode mn : String) (st : LoopState)
    (p : String) :
    processStep env mode mn st p =
      { total := st.total + (outcomeOf env mode mn p).count,
        results := dictInsert st.results p (outcomeOf env mode mn p),
        errors := st.errors ++
          (match (process_file env p mode mn).2.2 with
           | some e => [p ++ ": " ++ e]
           | none => []) } := by
  unfold processStep outcomeOf
  cases h : (process_file env p mode mn).2.2 <;> simp [h]

lemma sumNonErrorCounts_cons (kv : String × FileRes)
    (l : List (String × FileRes)) :
    sumNonErrorCounts (kv :: l)
      = (if kv.2.error = none then kv.2.count else 0) + sumNonErrorCounts l := by
  by_cases h : kv.2.error = none <;> simp [sumNonErrorCounts, h]

lemma outcomeOf_count_ite (env : Env) (mode mn p : String) :
    (outcomeOf env mode mn p).count
      = (if (outcomeOf env mode mn p).error = none
          then (outcomeOf env mode mn p).count else 0) := by
  unfold outcomeOf
  cases h : (process_file env p mode mn).2.2 <;> simp [h]

lemma outcomeOf_error (env : Env) (mode mn p : String) :
    (outcomeOf env mode mn p).error = (process_file env p mode mn).2.2 := by
  unfold outcomeOf
  cases h : (process_file env p mode mn).2.2 <;> simp [h]

/-- The processing loop appends exactly one outcome per file and
accumulates the counts of error-free outcomes, for any starting state
whose dict does not yet mention the files. -/
lemma processLoop_aux (env : Env) (mode mn : String) :
    ∀ (files : List String) (st : LoopState), files.Nodup →
      (∀ p ∈ files, ∀ kv ∈ st.results, kv.1 ≠ p) →
      (files.foldl (processStep env mode mn) st).results
          = st.results ++ files.map (fun p => (p, outcomeOf env mode mn p))
        ∧ (files.foldl (processStep env mode mn) st).total
          = st.total + sumNonErrorCounts
              (files.map (fun p => (p, outcomeOf env mode mn p))) := by
  intro files
  induction files with
  | nil =>
    intro st _ _
    exact ⟨by simp, by simp [sumNonErrorCounts]⟩
  | cons p ps ih =>
    intro st hnd hdis
    have hfresh : ∀ kv ∈ st.results, kv.1 ≠ p :=
      fun kv hkv => hdis p (by simp) kv hkv
    have hres : (processStep env mode mn st p).results
        = st.results ++ [(p, outcomeOf env mode mn p)] := by
      rw [processStep_eq]
      exact dictInsert_of_fresh _ hfresh
    have htot : (processStep env mode mn st p).total
        = st.total + (outcomeOf env mode mn p).count := by
      rw [processStep_eq]
    have hdis2 : ∀ q ∈ ps, ∀ kv ∈ (processStep env mode mn st p).results,
        kv.1 ≠ q := by
      intro q hq kv hkv
      rw [hres] at hkv
      rcases List.mem_append.mp hkv with hold | hnew
      · exact hdis q (List.mem_cons_of_mem p hq) kv hold
      · have hkvp : kv = (p, outcomeOf env mode mn p) := by simpa using hnew
        subst hkvp
        intro hpq
        have hpq2 : p = q := hpq
        subst hpq2
        exact (List.nodup_cons.mp hnd).1 hq
    obtain ⟨ih1, ih2⟩ :=
      ih (processStep env mode mn st p) (List.Nodup.of_cons hnd) hdis2
    constructor
    · rw [List.foldl_cons, ih1, hres, List.map_cons, List.append_assoc,
        List.singleton_append]
    · rw [List.foldl_cons, ih2, htot, List.map_cons, sumNonErrorCounts_cons]
      have hc := outcomeOf_count_ite env mode mn p
      simp only at hc ⊢
      omega

/-- The processing loop from the empty initial state. -/
lemma processLoop_spec (env : Env) (mode mn : String) (files : List String)
    (h : files.Nodup) :
    (processLoop env mode mn files).results
        = files.map (fun p => (p, outcomeOf env mode mn p))
      ∧ (processLoop env mode mn files).total
        = sumNonErrorCounts (files.map (fun p => (p, outcomeOf env mode mn p))) := by
  have haux := processLoop_aux env mode mn files ⟨0, [], []⟩ h (by simp)
  simpa [processLoop] using haux

lemma lookup_map_self (f : String → FileRes) :
    ∀ (l : List String) (p : String), p ∈ l →
      List.lookup p (l.map (fun x => (x, f x))) = some (f p) := by
  intro l
  induction l with
  | nil => intro p hp; simp at hp
  | cons a as ih =>
    intro p hp
    rw [List.map_cons]
    by_cases hpa : p = a
    · subst hpa; simp [List.lookup]
    · have hmem : p ∈ as := by
        rcases List.mem_cons.mp hp with hh | hh
        · exact absurd hh hpa
        · exact hh
      have hbeq : (p == a) = false := by simp [hpa]
      simp [List.lookup, hbeq, ih p hmem]

lemma writtenPayload_some (env : Env) (args : Args) (st : LoopState)
    (out : String) (hout : args.output = some out) (hw : env.writeOk = true) :
    writtenPayload env args st = some (buildPayload args.mode st.results) := by
  unfold writtenPayload
  rw [hout, hw]
  rfl

lemma mainRun_pre (env : Env) (args : Args)
    (hpre : args.mode = "tiktoken" ∧ env.tiktokenAvailable = false) :
    mainRun env args = ⟨1, none, [], [], 0, [], none⟩ := by
  unfold mainRun
  rw [if_pos hpre]

lemma mainRun_empty (env : Env) (args : Args)
    (hpre : ¬(args.mode = "tiktoken" ∧ env.tiktokenAvailable = false))
    (he : discoveredFiles env args = []) :
    mainRun env args = ⟨0, some [], [], [], 0, [], none⟩ := by
  unfold mainRun
  rw [if_neg hpre]
  unfold discoveredFiles at he
  simp [he]

lemma mainRun_nonempty (env : Env) (args : Args)
    (hpre : ¬(args.mode = "tiktoken" ∧ env.tiktokenAvailable = false))
    (hne : discoveredFiles env args ≠ []) :
    mainRun env args = mainAfterDiscovery env args (discoveredFiles env args) := by
  unfold mainRun
  rw [if_neg hpre]
  unfold discoveredFiles at hne ⊢
  simp [List.isEmpty_iff, hne]

lemma mainAfterDiscovery_total (env : Env) (args : Args) (cf : List String) :
    (mainAfterDiscovery env args cf).total
      = (processLoop env args.mode args.model (pySorted cf)).total := rfl

lemma mainAfterDiscovery_results (env : Env) (args : Args) (cf : List String) :
    (mainAfterDiscovery env args cf).results
      = (processLoop env args.mode args.model (pySorted cf)).results := rfl

lemma mainAfterDiscovery_written (env : Env) (args : Args) (cf : List String) :
    (mainAfterDiscovery env args cf).written
      = writtenPayload env args
          (processLoop env args.mode args.model (pySorted cf)) := rfl

/-! ## Claim theorems for the pipeline -/

/-- C1: in every run, once all files are processed the accumulated
total equals the sum of the per-file counts over the outcomes that
carry no error. -/
theorem total_eq_sum_over_ok_outcomes (env : Env) (args : Args)
    (h : (discoveredFiles env args).Nodup) :
    (mainRun env args).total = sumNonErrorCounts (mainRun env args).results := by
  by_cases hpre : args.mode = "tiktoken" ∧ env.tiktokenAvailable = false
  · rw [mainRun_pre env args hpre]; rfl
  · by_cases hne : discoveredFiles env args = []
    · rw [mainRun_empty env args hpre hne]; rfl
    · rw [mainRun_nonempty env args hpre hne,
        mainAfterDiscovery_total, mainAfterDiscovery_results]
      have hnd : (pySorted (discoveredFiles env args)).Nodup :=
        ((List.perm_insertionSort _ _).nodup_iff).mpr h
      obtain ⟨hres, htot⟩ :=
        processLoop_spec env args.mode args.model _ hnd
      rw [htot, hres]

/-- Witness for C1 at a concrete run. -/
theorem total_eq_sum_over_ok_outcomes_witness :
    (discoveredFiles envDemo argsDemo).Nodup ∧
    (mainRun envDemo argsDemo).total
      = sumNonErrorCounts (mainRun envDemo argsDemo).results :=
  ⟨by decide, total_eq_sum_over_ok_outcomes envDemo argsDemo (by decide)⟩

/-- C2 counterexample: naming a single existing file with an
unsupported extension yields an empty file set and exit code 0, not
the claimed exit code 1. -/
theorem unsupported_ext_exit_counterexample :
    discoveredFiles envSingle argsSingle = []
    ∧ (mainRun envSingle argsSingle).exitCode = 0
    ∧ ¬((mainRun envSingle argsSingle).exitCode = 1) := by
  decide

/-- C2 amended: both a single named file with an unsupported extension
and a missing input path yield an empty file set and exit code 0 (the
tiktoken pre-flight check must pass, or the run exits 1 earlier). -/
theorem empty_fileset_exits_zero (env : Env) (args : Args)
    (hpre : ¬(args.mode = "tiktoken" ∧ env.tiktokenAvailable = false))
    (h : env.fs.kind args.input_path = PathKind.file ∧
           (args.extensions.map normExt).contains
             (lowerStr (splitextExt args.input_path)) = false
         ∨ env.fs.kind args.input_path = PathKind.missing) :
    discoveredFiles env args = [] ∧ (mainRun env args).exitCode = 0 := by
  have he : discoveredFiles env args = [] := by
    unfold discoveredFiles find_code_files
    rcases h with ⟨hk, hext⟩ | hk
    · have hnc : ¬((args.extensions.map normExt).contains
          (lowerStr (splitextExt args.input_path)) = true) := by
        intro hcon
        rw [hext] at hcon
        exact Bool.false_ne_true hcon
      rw [hk, if_neg hnc]
    · rw [hk]
  exact ⟨he, by rw [mainRun_empty env args hpre he]⟩

/-- Witness for the amended C2 at a concrete run. -/
theorem empty_fileset_exits_zero_witness :
    discoveredFiles envSingle argsSingle = []
    ∧ (mainRun envSingle argsSingle).exitCode = 0 :=
  empty_fileset_exits_zero envSingle argsSingle (by decide)
    (Or.inl ⟨by decide, by decide⟩)

/-- C6 failing run: a discovered file whose path contains the text
"Output Error" fails to read; an output file is requested and written
successfully, yet the process exits 1 because the substring sentinel
of line 301 matches the processing-error message, contradicting the
exit-0 intent of lines 303-304. -/
theorem output_error_sentinel_collision :
    (mainRun envSentinel argsSentinel).errors ≠ []
    ∧ (mainRun envSentinel argsSentinel).written ≠ none
    ∧ (mainRun envSentinel argsSentinel).exitCode = 1 := by
  decide

/-- C7: when tiktoken mode is requested but the capability is absent,
the run exits 1 before discovering or reading any file. -/
theorem tiktoken_unavailable_early_exit (env : Env) (args : Args)
    (hmode : args.mode = "tiktoken") (hav : env.tiktokenAvailable = false) :
    (mainRun env args).exitCode = 1
    ∧ (mainRun env args).discovered = none
    ∧ (mainRun env args).processed = []
    ∧ (mainRun env args).results = [] := by
  rw [mainRun_pre env args ⟨hmode, hav⟩]
  exact ⟨rfl, rfl, rfl, rfl⟩

/-- Witness for C7 at a concrete run. -/
theorem tiktoken_unavailable_early_exit_witness :
    (mainRun envDemo argsTk).exitCode = 1
    ∧ (mainRun envDemo argsTk).discovered = none
    ∧ (mainRun envDemo argsTk).processed = []
    ∧ (mainRun envDemo argsTk).results = [] :=
  tiktoken_unavailable_early_exit envDemo argsTk (by decide) (by decide)

/-- C8: with tiktoken mode, a requested output and a successful write,
the written JSON value is the list with exactly one entry per
discovered file in sorted path order, each entry the token-ID list of
the file or the error placeholder carrying message and path. -/
theorem tiktoken_output_shape (env : Env) (args : Args) (out : String)
    (hmode : args.mode = "tiktoken") (hav : env.tiktokenAvailable = true)
    (hout : args.output = some out) (hw : env.writeOk = true)
    (hne : discoveredFiles env args ≠ [])
    (hnd : (discoveredFiles env args).Nodup) :
    (mainRun env args).written
      = some (OutPayload.jlist ((pySorted (discoveredFiles env args)).map
          (expectedEntry env args.mode args.model)))
    ∧ (pySorted (discoveredFiles env args)).length
        = (discoveredFiles env args).length := by
  have hpre : ¬(args.mode = "tiktoken" ∧ env.tiktokenAvailable = false) := by
    simp [hav]
  refine ⟨?_, by simp [pySorted, List.length_insertionSort]⟩
  rw [mainRun_nonempty env args hpre hne, mainAfterDiscovery_written,
    writtenPayload_some env args _ out hout hw, hmode]
  congr 1
  have hnd2 : (pySorted (discoveredFiles env args)).Nodup :=
    ((List.perm_insertionSort _ _).nodup_iff).mpr hnd
  obtain ⟨hres, _⟩ := processLoop_spec env "tiktoken" args.model _ hnd2
  unfold buildPayload
  rw [hres]
  have hkeys : ((pySorted (discoveredFiles env args)).map
      (fun p => (p, outcomeOf env "tiktoken" args.model p))).map Prod.fst
      = pySorted (discoveredFiles env args) := by
    rw [List.map_map]
    have hid : (Prod.fst ∘ fun p =>
        (p, outcomeOf env "tiktoken" args.model p)) = id := rfl
    rw [hid, List.map_id]
  rw [hkeys]
  have hsorted : List.Sorted (fun a b : String => a ≤ b)
      (pySorted (discoveredFiles env args)) :=
    List.sorted_insertionSort _ _
  have hidem : pySorted (pySorted (discoveredFiles env args))
      = pySorted (discoveredFiles env args) :=
    List.Sorted.insertionSort_eq hsorted
  rw [hidem, if_neg (by decide : ¬("tiktoken" : String) = "basic")]
  congr 1
  apply List.map_congr_left
  intro p hp
  rw [lookup_map_self _ _ p hp]
  unfold expectedEntry outcomeOf
  cases herr : (process_file env p "tiktoken" args.model).2.2 with
  | none =>
    cases hto : (process_file env p "tiktoken" args.model).1 with
    | none => simp [herr, hto]
    | some td => simp [herr, hto]
  | some e => simp [herr]

/-- Witness for C8 at a concrete run. -/
theorem tiktoken_output_shape_witness :
    (mainRun envTk argsTkOut).written
      = some (OutPayload.jlist ((pySorted (discoveredFiles envTk argsTkOut)).map
          (expectedEntry envTk argsTkOut.mode argsTkOut.model)))
    ∧ (pySorted (discoveredFiles envTk argsTkOut)).length
        = (discoveredFiles envTk argsTkOut).length :=
  tiktoken_output_shape envTk argsTkOut "/out/ids.json" (by decide) (by decide)
    (by decide) (by decide) (by decide) (by decide)

/-- C9: the processing loop yields exactly one outcome per discovered
file, in which any per-file failure is recorded as the error field,
and every file of the batch is processed. -/
theorem one_outcome_per_file (env : Env) (mode mn : String)
    (files : List String) (h : files.Nodup) :
    (processLoop env mode mn files).results.map Prod.fst = files
    ∧ ∀ p ∈ files,
        List.lookup p (processLoop env mode mn files).results
          = some (outcomeOf env mode mn p)
        ∧ (outcomeOf env mode mn p).error = (process_file env p mode mn).2.2 := by
  obtain ⟨hres, _⟩ := processLoop_spec env mode mn files h
  refine ⟨?_, ?_⟩
  · rw [hres, List.map_map]
    have hid : (Prod.fst ∘ fun p => (p, outcomeOf env mode mn p)) = id := rfl
    rw [hid, List.map_id]
  intro p hp
  rw [hres]
  exact ⟨lookup_map_self _ files p hp, outcomeOf_error env mode mn p⟩

/-- Witness for C9 at a concrete batch. -/
theorem one_outcome_per_file_witness :
    (processLoop envDemo "basic" "gpt-4"
        ["/repo/a.py", "/repo/b.py"]).results.map Prod.fst
      = ["/repo/a.py", "/repo/b.py"]
    ∧ ∀ p ∈ ["/repo/a.py", "/repo/b.py"],
        List.lookup p (processLoop envDemo "basic" "gpt-4"
            ["/repo/a.py", "/repo/b.py"]).results
          = some (outcomeOf envDemo "basic" "gpt-4" p)
        ∧ (outcomeOf envDemo "basic" "gpt-4" p).error
          = (process_file envDemo p "basic" "gpt-4").2.2 :=
  one_outcome_per_file envDemo "basic" "gpt-4"
    ["/repo/a.py", "/repo/b.py"] (by decide)

/-- C10: whenever `process_file` reports no error the returned count
equals the length of the returned token payload, and the error field
is absent exactly when the token payload is present (so on error the
count is 0 and the tokens are absent). -/
theorem process_file_count_consistent (env : Env)
    (file_path mode model_name : String) :
    (process_file env file_path mode model_name).2.1
      = (match (process_file env file_path mode model_name).1 with
         | some td => tokLen td
         | none => 0)
    ∧ ((process_file env file_path mode model_name).2.2 = none
        ↔ (process_file env file_path mode model_name).1 ≠ none) := by
  unfold process_file
  cases hr : env.read file_path with
  | ok content =>
    by_cases hb : mode = "basic"
    · simp [hb, tokLen]
    · by_cases ht : mode = "tiktoken"
      · by_cases hav : env.tiktokenAvailable = false
        · simp [hb, ht, hav]
        · cases henc : env.encode model_name content with
          | ok ids => simp [hb, ht, hav, henc, tokLen]
          | error e => simp [hb, ht, hav, henc]
      · simp [hb, ht]
  | notFound => simp
  | failed e => simp

end TokenizeCode
